import Mathlib

set_option maxHeartbeats 1000000

/- Verification of the OutboundOS LinkedIn-profile parsing pipeline.
   The repository ships a thin CLI wrapper (src/parse_linkedin.py); the
   heuristic structural parser it invokes (linkedin_pdf_extractor.
   extract_linkedin_profile) is specified by the design document and is
   modelled here from that specification.  The wrapper itself is embedded
   directly from src/parse_linkedin.py. -/

/-- Modelled from the spec: style hints carried by text fragments and
normalized lines (bold flag, font-size bucket), data model section 3 of the
design document; the core module linkedin_pdf_extractor is not under src. -/
structure Style where
  isBold : Bool
  fontSize : Nat
deriving DecidableEq, Repr

/-- Modelled from the spec: a normalized-line-sequence token, either a
retained text line with its style hints or an explicit BlankGap marker
standing for a visual blank-line separation (design document sections 3
and 4.1). -/
inductive Token where
  | line (text : String) (style : Style)
  | blankGap
deriving DecidableEq, Repr

/-- Modelled from the spec: a raw text fragment from the extraction
collaborator, with approximate position and style hints (section 6 input
contract). -/
structure TextFragment where
  text : String
  x : Nat
  y : Nat
  width : Nat
  height : Nat
  isBold : Bool
  fontSize : Nat
deriving DecidableEq, Repr

/-- Modelled from the spec: a page is a sequence of fragments; a document an
ordered sequence of pages. -/
abbrev Page : Type := List TextFragment

/-- Modelled from the spec: the document handed to the core. -/
abbrev Document : Type := List Page

/-- Modelled from the spec: section labels drawn from a fixed closed set plus
Unknown, with the synthetic Header pseudo-section (section 3). -/
inductive SectionLabel where
  | header
  | summary
  | experience
  | education
  | skills
  | certifications
  | unknown
deriving DecidableEq, Repr

/-- Whitespace test used by the text utilities. -/
def isWsChar (c : Char) : Bool := c = ' ' || c = '\t' || c = '\n' || c = '\r'

/-- Lower-case an entire string, character by character. -/
def lowerStr (s : String) : String := String.mk (s.data.map Char.toLower)

/-- Split a character list into maximal whitespace-free words. -/
def wordsAux (cur : List Char) : List Char → List String
  | [] => if cur = [] then [] else [String.mk cur.reverse]
  | c :: cs =>
    if isWsChar c then
      (if cur = [] then wordsAux [] cs else String.mk cur.reverse :: wordsAux [] cs)
    else wordsAux (c :: cur) cs

/-- The whitespace-separated words of a string. -/
def toWords (s : String) : List String := wordsAux [] s.data

/-- Join strings with a separator. -/
def joinWith (sep : String) : List String → String
  | [] => ""
  | [w] => w
  | w :: ws => w ++ sep ++ joinWith sep ws

/-- Collapse repeated whitespace and trim, by splitting into words and
re-joining with single spaces (normalizer responsibility, section 4.1). -/
def collapseWs (s : String) : String := joinWith " " (toWords s)

/-- Drop every character that is neither alphanumeric nor whitespace
(punctuation stripping for heading matching, section 4.2). -/
def stripPunct (s : String) : String :=
  String.mk (s.data.filter (fun c => c.isAlphanum || isWsChar c))

/-- Canonical form of a candidate heading: case-insensitive, punctuation
stripped, whitespace collapsed (section 4.2). -/
def canonHeading (s : String) : String := collapseWs (stripPunct (lowerStr s))

/-- Modelled from the spec: year part of a date point, month optional
(data model section 3, DateRange). -/
structure DatePoint where
  year : Nat
  month : Option Nat
deriving DecidableEq, Repr

/-- Modelled from the spec: a duration in years and months, as stated
literally in source text or derived by subtraction. -/
structure Duration where
  years : Nat
  months : Nat
deriving DecidableEq, Repr

/-- Modelled from the spec: the end of a date range is either a concrete
date point or the open-ended present sentinel. -/
inductive DateEnd where
  | point (p : DatePoint)
  | present
deriving DecidableEq, Repr

/-- Modelled from the spec: optional start, optional end, optional
duration (data model section 3). -/
structure DateRange where
  start : Option DatePoint
  stop : Option DateEnd
  duration : Option Duration
deriving DecidableEq, Repr

/-- Modelled from the spec: the month-name locale table of the Date Range
Parser (section 4.3), three-letter and full English month tokens. -/
def monthTable : List (String × Nat) :=
  [("jan", 1), ("january", 1), ("feb", 2), ("february", 2),
   ("mar", 3), ("march", 3), ("apr", 4), ("april", 4),
   ("may", 5), ("jun", 6), ("june", 6), ("jul", 7), ("july", 7),
   ("aug", 8), ("august", 8), ("sep", 9), ("september", 9),
   ("oct", 10), ("october", 10), ("nov", 11), ("november", 11),
   ("dec", 12), ("december", 12)]

/-- Look a lowercased token up in the month table. -/
def monthNum (w : String) : Option Nat :=
  (monthTable.find? (fun e => e.1 = lowerStr w)).map (·.2)

/-- Parse a decimal natural number from a string, failing on anything
else. -/
def decNat (s : String) : Option Nat :=
  if s.data ≠ [] ∧ s.data.all Char.isDigit then
    some (s.data.foldl (fun n c => n * 10 + (c.toNat - 48)) 0)
  else none

/-- A token counts as a plausible year only with four or more digits, so
bare small numbers are not mistaken for years. -/
def yearNat (s : String) : Option Nat :=
  (decNat s).bind (fun n => if 1000 ≤ n then some n else none)

/-- Parse the words of one side of a range into a date point: either a
bare year or a month name followed by a year (section 4.3). -/
def parseDatePoint (ws : List String) : Option DatePoint :=
  match ws with
  | [y] => (yearNat y).map (fun n => { year := n, month := none })
  | [m, y] =>
    match monthNum m, yearNat y with
    | some mn, some yn => some { year := yn, month := some mn }
    | _, _ => none
  | _ => none

/-- Separator tokens recognized between the two bounds of a range. -/
def isSepTok (w : String) : Bool := w = "-" || w = "–" || w = "to"

/-- Split a word list at the first separator token, keeping both sides. -/
def splitAtSep : List String → Option (List String × List String)
  | [] => none
  | w :: rest =>
    if isSepTok w then some ([], rest)
    else (splitAtSep rest).map (fun p => (w :: p.1, p.2))

/-- Year-unit tokens of a duration suffix. -/
def isYearUnit (w : String) : Bool :=
  w = "yr" || w = "yrs" || w = "year" || w = "years"

/-- Month-unit tokens of a duration suffix. -/
def isMonthUnit (w : String) : Bool :=
  w = "mo" || w = "mos" || w = "month" || w = "months"

/-- Parse an explicit duration phrase such as 3 yrs 2 mos, 1 yr, or
6 mos (section 4.3); anything else fails. -/
def parseDuration (s : String) : Option Duration :=
  match toWords s with
  | [n, u] =>
    if isYearUnit u then (decNat n).map (fun y => { years := y, months := 0 })
    else if isMonthUnit u then (decNat n).map (fun m => { years := 0, months := m })
    else none
  | [n, u, m, v] =>
    if isYearUnit u && isMonthUnit v then
      match decNat n, decNat m with
      | some y, some mo => some { years := y, months := mo }
      | _, _ => none
    else none
  | _ => none

/-- Split a span at the first middle-dot separator into the main range text
and the trailing duration text, when present (section 4.3: a trailing
duration follows a separator such as the middle dot). -/
def splitAnnGo (cur : List Char) : List Char → (String × Option String)
  | [] => (String.mk cur.reverse, none)
  | c :: cs =>
    if c = '·' then (String.mk cur.reverse, some (String.mk cs))
    else splitAnnGo (c :: cur) cs

/-- Modelled from the spec: a trailing parenthesized duration annotation;
when the span ends with a parenthesized group, the group content is the
annotation text and the part before the opening parenthesis the main text
(section 4.3). -/
def splitParenAnn (s : String) : String × Option String :=
  match (s.data.reverse).dropWhile isWsChar with
  | ')' :: rest =>
    (let inner := rest.takeWhile (fun c => c ≠ '(')
     match rest.drop inner.length with
     | '(' :: before => (String.mk before.reverse, some (String.mk inner.reverse))
     | _ => (s, none))
  | _ => (s, none)

/-- Modelled from the spec: main part and optional trailing duration text
of a span; the annotation stands after a middle-dot separator or in
parentheses (section 4.3). -/
def splitAnn (s : String) : String × Option String :=
  match splitAnnGo [] s.data with
  | (main, some annText) => (main, some annText)
  | (main, none) => splitParenAnn main

/-- The explicitly stated duration of a span, when its trailing duration
text parses. -/
def annDurOf (s : String) : Option Duration := (splitAnn s).2.bind parseDuration

/-- Modelled from the spec: derive a duration by subtraction only when both
bounds are concrete date points (at least year granularity); a present or
absent end never yields a derived duration (section 4.3). -/
def deriveDuration (st : Option DatePoint) (en : Option DateEnd) : Option Duration :=
  match st, en with
  | some a, some (DateEnd.point b) =>
    match a.month, b.month with
    | some am, some bm =>
      some { years := ((b.year * 12 + bm) - (a.year * 12 + am)) / 12,
             months := ((b.year * 12 + bm) - (a.year * 12 + am)) % 12 }
    | _, _ => some { years := b.year - a.year, months := 0 }
  | _, _ => none

/-- Modelled from the spec: the present sentinel of the locale table. -/
def isPresentWords (ws : List String) : Bool :=
  match ws with
  | [w] => lowerStr w = "present"
  | _ => false

/-- Modelled from the spec: the Date Range Parser (section 4.3).  The span
is split into a main range and an optional trailing duration; the main
range is split at the first separator token; each side parses as a date
point, the right side alternatively as the present sentinel.  An explicit
duration is kept verbatim; otherwise a duration is derived only when both
bounds are concrete points.  Unrecognized spans fail. -/
def parseDateRange (s : String) : Option DateRange :=
  let main := (splitAnn s).1
  let ann := annDurOf s
  match splitAtSep (toWords main) with
  | some (l, r) =>
    let st := parseDatePoint l
    let en :=
      if isPresentWords r then some DateEnd.present
      else (parseDatePoint r).map DateEnd.point
    if st.isNone && en.isNone then none
    else
      some { start := st, stop := en,
             duration := match ann with
                         | some d => some d
                         | none => deriveDuration st en }
  | none =>
    match parseDatePoint (toWords main) with
    | some p => some { start := some p, stop := none, duration := ann }
    | none => none

/-- Modelled from the spec: the fixed vocabulary table mapping known heading
phrases (with common variants) to a Section label (section 4.2 and the
glossary). -/
def headingVocab : List (String × SectionLabel) :=
  [("summary", SectionLabel.summary),
   ("about", SectionLabel.summary),
   ("experience", SectionLabel.experience),
   ("work experience", SectionLabel.experience),
   ("education", SectionLabel.education),
   ("skills", SectionLabel.skills),
   ("top skills", SectionLabel.skills),
   ("skills and endorsements", SectionLabel.skills),
   ("certifications", SectionLabel.certifications),
   ("licenses and certifications", SectionLabel.certifications)]

/-- Pick, among vocabulary entries whose phrase equals the key, the one with
the longest phrase (section 4.2: longest-match wins on ties). -/
def vocabBest (key : String) : List (String × SectionLabel) → Option (String × SectionLabel)
  | [] => none
  | e :: es =>
    let rest := vocabBest key es
    if e.1 = key then
      match rest with
      | some r => if e.1.length < r.1.length then some r else some e
      | none => some e
    else rest

/-- Vocabulary lookup on the canonical heading text. -/
def vocabLookup (key : String) : Option SectionLabel :=
  (vocabBest key headingVocab).map (·.2)

/-- Modelled from the spec: font-size bucket of ordinary body text; a larger
bucket is a heading-style hint. -/
def bodyFontBucket : Nat := 1

/-- A bold or larger-style hint on a line (one of the structural heading
signals of section 4.2). -/
def hasStyleSignal (st : Style) : Bool :=
  st.isBold || decide (bodyFontBucket < st.fontSize)

/-- Modelled from the spec: heading decision for one line given whether a
BlankGap immediately precedes it (section 4.2).  A vocabulary match
together with at least one structural signal (style hint, or alone on its
line right after a BlankGap) yields that label; a line with no vocabulary
match opens an Unknown section only when it carries both the style signal
and the preceding BlankGap, the strong heading-like case. -/
def headingLabel (text : String) (st : Style) (prevBlank : Bool) : Option SectionLabel :=
  match vocabLookup (canonHeading text) with
  | some lbl => if hasStyleSignal st || prevBlank then some lbl else none
  | none =>
    if hasStyleSignal st && prevBlank then some SectionLabel.unknown else none

/-- Modelled from the spec: a Section is a label and the ordered token run
belonging to it; for labelled sections the heading line itself is the first
token of the run, so that sections partition the document lines. -/
structure DocSec where
  label : SectionLabel
  toks : List Token
deriving DecidableEq, Repr

/-- Worker of the Section Segmenter: scans tokens in order, carrying the
current section label, the tokens accumulated for it, and whether the
previous token was a BlankGap (section 4.2). -/
def segGo (lbl : SectionLabel) (cur : List Token) (prevBlank : Bool) :
    List Token → List DocSec
  | [] => [{ label := lbl, toks := cur }]
  | Token.blankGap :: rest => segGo lbl (cur ++ [Token.blankGap]) true rest
  | Token.line s st :: rest =>
    match headingLabel s st prevBlank with
    | some newLbl =>
      { label := lbl, toks := cur } :: segGo newLbl [Token.line s st] false rest
    | none => segGo lbl (cur ++ [Token.line s st]) false rest

/-- Modelled from the spec: the Section Segmenter; everything before the
first recognized heading forms the synthetic Header pseudo-section
(section 4.2). -/
def segmentDoc (ts : List Token) : List DocSec :=
  segGo SectionLabel.header [] false ts

/-- Bullet markers that start description continuations rather than new
lines of structure (sections 4.1 and 4.4). -/
def isBulletLine (s : String) : Bool :=
  match s.data with
  | [] => false
  | c :: _ => c = '•' || c = '-' || c = '*' || c = '·' || c = '‣'

/-- Worker of entry chunking: a new entry starts at a line immediately
preceded by a BlankGap that is neither a date-range line nor a bullet
continuation (section 4.4); BlankGaps themselves are not copied into
chunks. -/
def chunksGo (cur : List String) (prevBlank : Bool) : List Token → List (List String)
  | [] => [cur]
  | Token.blankGap :: rest => chunksGo cur true rest
  | Token.line s _ :: rest =>
    if prevBlank && !(parseDateRange s).isSome && !isBulletLine s then
      cur :: chunksGo [s] false rest
    else chunksGo (cur ++ [s]) false rest

/-- The non-empty entry chunks of a section body. -/
def entryChunks (ts : List Token) : List (List String) :=
  (chunksGo [] false ts).filter (fun c => c ≠ [])

/-- Modelled from the spec: one experience entry (data model section 3);
company and location optional at the model level so a sparse entry keeps
its resolved fields. -/
structure ExperienceEntry where
  title : String
  company : Option String
  location : Option String
  dates : List DateRange
  description : Option String
deriving DecidableEq, Repr

/-- Modelled from the spec: one education entry (data model section 3). -/
structure EducationEntry where
  institution : String
  degree : Option String
  fieldOfStudy : Option String
  dates : Option DateRange
  description : Option String
deriving DecidableEq, Repr

/-- Modelled from the spec: one skill entry with optional endorsement
count (data model section 3). -/
structure SkillEntry where
  skillName : String
  endorsements : Option Nat
deriving DecidableEq, Repr

/-- Modelled from the spec: one certification entry. -/
structure CertEntry where
  certName : String
deriving DecidableEq, Repr

/-- Modelled from the spec: a warning is a field name plus a message drawn
from the error taxonomy (sections 6 and 7). -/
structure Warning where
  field : String
  message : String
deriving DecidableEq, Repr

/-- Structural lines of an entry chunk: the lines before the first line
that parses as a date range (section 4.4). -/
def structuralLines (c : List String) : List String :=
  c.takeWhile (fun s => !(parseDateRange s).isSome)

/-- Modelled from the spec: parse one experience chunk (section 4.4):
structural lines in fixed positional order title, company, location; all
date-range lines collected (several stints allowed, section 9); remaining
lines after the first date range joined as the description.  A chunk whose
mandatory leading title cannot be resolved fails. -/
def parseExperienceChunk (c : List String) : Option ExperienceEntry :=
  match structuralLines c with
  | [] => none
  | title :: restStruct =>
    let tail := c.drop (structuralLines c).length
    let descLines := tail.filter (fun s => !(parseDateRange s).isSome)
    some { title := title,
           company := restStruct.get? 0,
           location := restStruct.get? 1,
           dates := tail.filterMap parseDateRange,
           description :=
             match descLines with
             | [] => none
             | _ => some (joinWith "\n" descLines) }

/-- Worker for the Experience section: valid chunks become entries in
source order; a chunk with no resolvable leading field is dropped with an
UnresolvedEntryField warning (section 4.4 failure policy). -/
def expGo : List (List String) → List ExperienceEntry × List Warning
  | [] => ([], [])
  | c :: cs =>
    let rest := expGo cs
    match parseExperienceChunk c with
    | some e => (e :: rest.1, rest.2)
    | none => (rest.1, { field := "experience", message := "UnresolvedEntryField" } :: rest.2)

/-- Modelled from the spec: the Experience entry parser over a section
body. -/
def parseExperienceSection (ts : List Token) : List ExperienceEntry × List Warning :=
  expGo (entryChunks ts)

/-- Modelled from the spec: parse one education chunk (section 4.4),
positional order institution, degree, field of study; first date-range
line is the entry date range. -/
def parseEducationChunk (c : List String) : Option EducationEntry :=
  match structuralLines c with
  | [] => none
  | inst :: restStruct =>
    let tail := c.drop (structuralLines c).length
    let descLines := tail.filter (fun s => !(parseDateRange s).isSome)
    some { institution := inst,
           degree := restStruct.get? 0,
           fieldOfStudy := restStruct.get? 1,
           dates := (tail.filterMap parseDateRange).head?,
           description :=
             match descLines with
             | [] => none
             | _ => some (joinWith "\n" descLines) }

/-- Worker for the Education section, mirroring the Experience failure
policy. -/
def eduGo : List (List String) → List EducationEntry × List Warning
  | [] => ([], [])
  | c :: cs =>
    let rest := eduGo cs
    match parseEducationChunk c with
    | some e => (e :: rest.1, rest.2)
    | none => (rest.1, { field := "education", message := "UnresolvedEntryField" } :: rest.2)

/-- Modelled from the spec: the Education entry parser over a section
body. -/
def parseEducationSection (ts : List Token) : List EducationEntry × List Warning :=
  eduGo (entryChunks ts)

/-- Strip a trailing endorsement suffix written after a middle dot, such as
N endorsements, into a separate count (section 4.4). -/
def parseSkillLine (s : String) : SkillEntry :=
  match splitAnn s with
  | (main, some suffix) =>
    match toWords suffix with
    | [n, w] =>
      if lowerStr w = "endorsements" || lowerStr w = "endorsement" then
        { skillName := collapseWs main, endorsements := decNat n }
      else { skillName := collapseWs s, endorsements := none }
    | _ => { skillName := collapseWs s, endorsements := none }
  | (_, none) => { skillName := collapseWs s, endorsements := none }

/-- Modelled from the spec: Skills use a one-entry-per-line rule over the
section body lines (section 4.4). -/
def parseSkillsSection (ts : List Token) : List SkillEntry :=
  (ts.filterMap (fun t => match t with
    | Token.line s _ => some s
    | Token.blankGap => none)).map parseSkillLine

/-- Modelled from the spec: Certifications use a one-entry-per-line
rule. -/
def parseCertsSection (ts : List Token) : List CertEntry :=
  ts.filterMap (fun t => match t with
    | Token.line s _ => some { certName := s }
    | Token.blankGap => none)

/-- Modelled from the spec: the fatal error taxonomy entries that abort the
whole parse (section 7). -/
inductive CoreError where
  | emptyDocument
  | missingRequiredSection
deriving DecidableEq, Repr

/-- Modelled from the spec: the final structured record (data model
section 3); absent sections are empty lists. -/
structure ProfileRecord where
  name : String
  headline : Option String
  location : Option String
  summary : Option String
  experience : List ExperienceEntry
  education : List EducationEntry
  skills : List SkillEntry
  certifications : List CertEntry
  warnings : List Warning
deriving DecidableEq, Repr

/-- The line tokens of a token run, keeping text and style and dropping
BlankGaps. -/
def linesOf : List Token → List (String × Style)
  | [] => []
  | Token.blankGap :: r => linesOf r
  | Token.line s st :: r => (s, st) :: linesOf r

/-- Largest font-size bucket among a list of header lines. -/
def maxFont : List (String × Style) → Nat
  | [] => 0
  | l :: ls => max l.2.fontSize (maxFont ls)

/-- Index of the first list element satisfying a predicate. -/
def pickIdx {α : Type} (p : α → Bool) : List α → Option Nat
  | [] => none
  | a :: as => if p a then some 0 else (pickIdx p as).map (· + 1)

/-- Modelled from the spec: a location-like line is short and contains a
comma (Profile Assembler heuristic, section 4.5). -/
def looksLikeLocation (s : String) : Bool :=
  decide (s.data.length ≤ 40) && s.data.any (fun c => c = ',')

/-- The Header pseudo-section tokens: the first section produced by the
segmenter when labelled Header. -/
def headerToksOf (secs : List DocSec) : List Token :=
  match secs with
  | s :: _ => if s.label = SectionLabel.header then s.toks else []
  | [] => []

/-- Body tokens of a section: for labelled sections the heading line is
dropped; the Header pseudo-section has no heading line. -/
def secBody (sec : DocSec) : List Token :=
  if sec.label = SectionLabel.header then sec.toks else sec.toks.drop 1

/-- All body tokens carrying a given label, in document order. -/
def bodiesOf (lbl : SectionLabel) (secs : List DocSec) : List Token :=
  ((secs.filter (fun s => s.label = lbl)).map secBody).flatten

/-- Modelled from the spec: the Profile Assembler (section 4.5).  The name
is the largest-style Header line (earliest on ties); a missing or empty
name is the fatal MissingRequiredSection failure; the line after the name
is the headline; a short trailing location-like line is the location;
unresolved header fields degrade to null with a warning; section outputs
are merged, each absent section giving an empty list. -/
def assemble (secs : List DocSec) : Except CoreError ProfileRecord :=
  let hl := linesOf (headerToksOf secs)
  match pickIdx (fun l => l.2.fontSize = maxFont hl) hl with
  | none => Except.error CoreError.missingRequiredSection
  | some i =>
    match hl.get? i with
    | none => Except.error CoreError.missingRequiredSection
    | some nmLine =>
      if nmLine.1 = "" then Except.error CoreError.missingRequiredSection
      else
        let headline := (hl.get? (i + 1)).map (·.1)
        let location :=
          match hl.get? (hl.length - 1) with
          | some lastLine =>
            if decide (i + 2 ≤ hl.length - 1) && looksLikeLocation lastLine.1 then
              some lastLine.1
            else none
          | none => none
        let headerWarns :=
          (if headline.isNone then
            [{ field := "headline", message := "HeaderFieldUnresolved" }] else [])
          ++ (if location.isNone then
            [{ field := "location", message := "HeaderFieldUnresolved" }] else [])
        let sumLines := (linesOf (bodiesOf SectionLabel.summary secs)).map (·.1)
        let exp := parseExperienceSection (bodiesOf SectionLabel.experience secs)
        let edu := parseEducationSection (bodiesOf SectionLabel.education secs)
        Except.ok
          { name := nmLine.1,
            headline := headline,
            location := location,
            summary :=
              match sumLines with
              | [] => none
              | _ => some (joinWith "\n" sumLines),
            experience := exp.1,
            education := edu.1,
            skills := parseSkillsSection (bodiesOf SectionLabel.skills secs),
            certifications := parseCertsSection (bodiesOf SectionLabel.certifications secs),
            warnings := headerWarns ++ exp.2 ++ edu.2 }

/-- Modelled from the spec: parse an already-normalized line sequence:
segmentation followed by assembly (pipeline of section 2 after the
normalizer). -/
def parseNormalized (ts : List Token) : Except CoreError ProfileRecord :=
  assemble (segmentDoc ts)

/-- Fragment reading order: top-to-bottom, ties on equal vertical position
broken by horizontal position (section 6 input contract). -/
def fragBefore (f g : TextFragment) : Bool :=
  decide (f.y < g.y) || (decide (f.y = g.y) && decide (f.x < g.x))

/-- Insert one fragment into an already ordered list, keeping input order
among positional ties. -/
def insertFrag (f : TextFragment) : List TextFragment → List TextFragment
  | [] => [f]
  | g :: gs => if fragBefore f g then f :: g :: gs else g :: insertFrag f gs

/-- Insertion sort of a page by reading order. -/
def sortFrags : List TextFragment → List TextFragment
  | [] => []
  | f :: fs => insertFrag f (sortFrags fs)

/-- Combine style hints of fragments coalesced into one line. -/
def combineStyle (a b : Style) : Style :=
  { isBold := a.isBold || b.isBold, fontSize := max a.fontSize b.fontSize }

/-- Coalesce position-adjacent fragments (same vertical position) into
single lines, joining texts left to right (section 4.1). -/
def coalesceGo (curText : String) (curStyle : Style) (curY : Nat) :
    List TextFragment → List (String × Style)
  | [] => [(curText, curStyle)]
  | f :: fs =>
    if f.y = curY then
      coalesceGo (curText ++ " " ++ f.text)
        (combineStyle curStyle { isBold := f.isBold, fontSize := f.fontSize }) curY fs
    else
      (curText, curStyle) ::
        coalesceGo f.text { isBold := f.isBold, fontSize := f.fontSize } f.y fs

/-- The coalesced lines of one page, in reading order. -/
def pageLines (p : Page) : List (String × Style) :=
  match sortFrags p with
  | [] => []
  | f :: fs => coalesceGo f.text { isBold := f.isBold, fontSize := f.fontSize } f.y fs

/-- Number of pages on which a given cleaned line text occurs. -/
def pagesWithLine (pls : List (List (String × Style))) (t : String) : Nat :=
  (pls.filter (fun pg => pg.any (fun l => l.1 = t))).length

/-- Modelled from the spec: recurring per-page boilerplate is a non-empty
line occurring near-identically on a majority of pages, which requires at
least two pages (section 4.1). -/
def isBoilerplate (pls : List (List (String × Style))) (t : String) : Bool :=
  let c := pagesWithLine pls t
  decide (t ≠ "") && decide (2 ≤ c) && decide (pls.length < 2 * c)

/-- Modelled from the spec: a pure page-number line is integer-only
(section 4.1). -/
def isPageNumberLine (t : String) : Bool :=
  decide (t ≠ "") && t.data.all Char.isDigit

/-- Does a line end with terminal punctuation (soft-wrap rule of
section 4.1). -/
def endsTerminal (s : String) : Bool :=
  match s.data.getLast? with
  | some c => c = '.' || c = '!' || c = '?' || c = ':' || c = ';'
  | none => false

/-- Does a line start lower-case (soft-wrap rule of section 4.1). -/
def startsLower (s : String) : Bool :=
  match s.data with
  | c :: _ => c.isLower
  | [] => false

/-- Soft-wrap merge condition: no terminal punctuation, next line starts
lower-case, and the next line is neither a known heading nor a bullet
marker (section 4.1). -/
def needsMerge (a b : String) : Bool :=
  !endsTerminal a && startsLower b
    && !(vocabLookup (canonHeading b)).isSome && !isBulletLine b

/-- Worker merging soft line-wraps over the token sequence, carrying the
pending unfinished line. -/
def mergeGo (pending : Option (String × Style)) : List Token → List Token
  | [] =>
    (match pending with
     | some p => [Token.line p.1 p.2]
     | none => [])
  | Token.blankGap :: rest =>
    (match pending with
     | some p => [Token.line p.1 p.2]
     | none => []) ++ Token.blankGap :: mergeGo none rest
  | Token.line b sb :: rest =>
    match pending with
    | none => mergeGo (some (b, sb)) rest
    | some (a, sa) =>
      if needsMerge a b then mergeGo (some (a ++ " " ++ b, combineStyle sa sb)) rest
      else Token.line a sa :: mergeGo (some (b, sb)) rest

/-- Merge soft line-wraps (section 4.1). -/
def mergeWraps (ts : List Token) : List Token := mergeGo none ts

/-- Collapse runs of BlankGaps and drop a trailing gap. -/
def cgGo : List Token → List Token
  | [] => []
  | Token.blankGap :: rest =>
    (match cgGo rest with
     | [] => []
     | Token.blankGap :: r => Token.blankGap :: r
     | t :: r => Token.blankGap :: t :: r)
  | t :: rest => t :: cgGo rest

/-- BlankGaps survive only between retained lines: collapse runs, drop
leading and trailing gaps (section 4.1). -/
def collapseGaps (ts : List Token) : List Token :=
  match cgGo ts with
  | Token.blankGap :: r => r
  | r => r

/-- Modelled from the spec: the Fragment Normalizer (section 4.1):
coalesce fragments into lines in reading order, drop recurring boilerplate
and page-number lines, collapse whitespace, turn empty lines into BlankGap
markers between retained lines, and merge soft line-wraps. -/
def normalizeDoc (doc : Document) : List Token :=
  let pls := doc.map pageLines
  let cleaned := pls.map (fun pg => pg.map (fun l => (collapseWs l.1, l.2)))
  let kept := cleaned.map (fun pg =>
    pg.filter (fun l => !isBoilerplate cleaned l.1 && !isPageNumberLine l.1))
  let toks := kept.flatten.map (fun l =>
    if l.1 = "" then Token.blankGap else Token.line l.1 l.2)
  mergeWraps (collapseGaps toks)

/-- Retained line count of a normalized sequence. -/
def countLines (ts : List Token) : Nat :=
  (ts.filter (fun t =>
    match t with
    | Token.line _ _ => true
    | Token.blankGap => false)).length

/-- Modelled from the spec: the minimum threshold of non-boilerplate lines
below which the document is empty (section 4.1). -/
def minRetainedLines : Nat := 1

/-- Modelled from the spec: the core entry point
extract_linkedin_profile of module linkedin_pdf_extractor, absent from
src: normalize, fail with EmptyDocument below the retained-line threshold,
else segment and assemble (sections 2, 4.1 and 6). -/
def extractCore (doc : Document) : Except CoreError ProfileRecord :=
  let toks := normalizeDoc doc
  if countLines toks < minRetainedLines then Except.error CoreError.emptyDocument
  else parseNormalized toks

/-- Escape a string for a JSON string literal (quote, backslash and
newline). -/
def jsonEscape (s : String) : String :=
  String.mk (s.data.foldr (fun c acc =>
    if c = '"' then '\\' :: '"' :: acc
    else if c = '\\' then '\\' :: '\\' :: acc
    else if c = '\n' then '\\' :: 'n' :: acc
    else c :: acc) [])

/-- A JSON string literal. -/
def jsonStr (s : String) : String := "\"" ++ jsonEscape s ++ "\""

/-- An optional JSON string, null when absent. -/
def jsonOptStr : Option String → String
  | some s => jsonStr s
  | none => "null"

/-- An optional JSON number, null when absent. -/
def jsonOptNat : Option Nat → String
  | some n => Nat.repr n
  | none => "null"

/-- A JSON array from already serialized items, with the separators the
Python json module emits. -/
def jsonArr (xs : List String) : String := "[" ++ joinWith ", " xs ++ "]"

/-- A JSON object from serialized fields, with the separators the Python
json module emits. -/
def jsonObj (fields : List (String × String)) : String :=
  "\x7b" ++ joinWith ", " (fields.map (fun f => jsonStr f.1 ++ ": " ++ f.2)) ++ "\x7d"

/-- Serialize a date point. -/
def serializeDatePoint (p : DatePoint) : String :=
  jsonObj [("year", Nat.repr p.year), ("month", jsonOptNat p.month)]

/-- Serialize a range end; the present sentinel serializes as the string
present. -/
def serializeDateEnd : DateEnd → String
  | DateEnd.point p => serializeDatePoint p
  | DateEnd.present => jsonStr "present"

/-- Serialize a duration. -/
def serializeDuration (d : Duration) : String :=
  jsonObj [("years", Nat.repr d.years), ("months", Nat.repr d.months)]

/-- Serialize a date range with stable key names. -/
def serializeDateRange (r : DateRange) : String :=
  jsonObj [("start", match r.start with
                     | some p => serializeDatePoint p
                     | none => "null"),
           ("end", match r.stop with
                   | some e => serializeDateEnd e
                   | none => "null"),
           ("duration", match r.duration with
                        | some d => serializeDuration d
                        | none => "null")]

/-- Serialize an experience entry. -/
def serializeExperience (e : ExperienceEntry) : String :=
  jsonObj [("title", jsonStr e.title),
           ("company", jsonOptStr e.company),
           ("location", jsonOptStr e.location),
           ("dates", jsonArr (e.dates.map serializeDateRange)),
           ("description", jsonOptStr e.description)]

/-- Serialize an education entry. -/
def serializeEducation (e : EducationEntry) : String :=
  jsonObj [("institution", jsonStr e.institution),
           ("degree", jsonOptStr e.degree),
           ("field_of_study", jsonOptStr e.fieldOfStudy),
           ("dates", match e.dates with
                     | some r => serializeDateRange r
                     | none => "null"),
           ("description", jsonOptStr e.description)]

/-- Serialize a skill entry. -/
def serializeSkill (e : SkillEntry) : String :=
  jsonObj [("name", jsonStr e.skillName),
           ("endorsements", jsonOptNat e.endorsements)]

/-- Serialize a certification entry. -/
def serializeCert (e : CertEntry) : String :=
  jsonObj [("name", jsonStr e.certName)]

/-- Serialize a warning pair. -/
def serializeWarning (w : Warning) : String :=
  jsonObj [("field", jsonStr w.field), ("message", jsonStr w.message)]

/-- Modelled from the spec: serialization of the final record to the flat
JSON structure with stable key names and empty sections as empty lists
(section 6 output contract). -/
def serializeRecord (r : ProfileRecord) : String :=
  jsonObj [("name", jsonStr r.name),
           ("headline", jsonOptStr r.headline),
           ("location", jsonOptStr r.location),
           ("summary", jsonOptStr r.summary),
           ("experience", jsonArr (r.experience.map serializeExperience)),
           ("education", jsonArr (r.education.map serializeEducation)),
           ("skills", jsonArr (r.skills.map serializeSkill)),
           ("certifications", jsonArr (r.certifications.map serializeCert)),
           ("warnings", jsonArr (r.warnings.map serializeWarning))]

/-- Observable outcome of one wrapper invocation: exit status, data
written to the output stream, data written to the error stream, and
whether the core extractor was invoked (embedded from
src/parse_linkedin.py). -/
structure RunResult where
  exitCode : Nat
  stdoutData : Option String
  stderrData : Option String
  calledCore : Bool
deriving DecidableEq, Repr

/-- The usage message of src/parse_linkedin.py line 7. -/
def usageMessage : String := "Usage: parse_linkedin.py <pdf_path>"

/-- The JSON error envelope the wrapper prints to the error stream:
a one-key object as the Python json module renders it
(src/parse_linkedin.py lines 7 and 14). -/
def errorEnvelope (msg : String) : String :=
  "\x7b\"error\": " ++ jsonStr msg ++ "\x7d"

/-- The message str(e) carried by each fatal core error. -/
def errMessage : CoreError → String
  | CoreError.emptyDocument => "EmptyDocument"
  | CoreError.missingRequiredSection => "MissingRequiredSection"

/-- Embedded from src/parse_linkedin.py: the whole script body.  With other
than exactly one argument after the program name it prints the usage
envelope to the error stream and exits 1 without calling the extractor;
otherwise it calls the extractor on the path, printing the serialized
record to the output stream on success (exit 0), and on any raised
exception the error envelope with the exception text to the error stream
(exit 1).  The extractor and the message function are parameters so the
wrapper is settled for every possible exception type. -/
def runMain {E : Type} (msgOf : E → String)
    (extractFn : String → Except E ProfileRecord) (argv : List String) : RunResult :=
  match argv with
  | [_, path] =>
    (match extractFn path with
     | Except.ok r =>
       { exitCode := 0, stdoutData := some (serializeRecord r),
         stderrData := none, calledCore := true }
     | Except.error e =>
       { exitCode := 1, stdoutData := none,
         stderrData := some (errorEnvelope (msgOf e)), calledCore := true })
  | _ =>
    { exitCode := 1, stdoutData := none,
      stderrData := some (errorEnvelope usageMessage), calledCore := false }

/-- The program run on a document standing for the file content at the
given path: the wrapper around the spec-modelled core. -/
def runProgram (argv : List String) (doc : Document) : RunResult :=
  runMain errMessage (fun _ => extractCore doc) argv

/-- The Header pseudo-section lines of a normalized sequence, as the
segmenter and assembler see them. -/
def headerLinesOf (ts : List Token) : List (String × Style) :=
  linesOf (headerToksOf (segmentDoc ts))

/-- The name field of a successful parse, for stating claims about the
resulting record. -/
def recNameOf : Except CoreError ProfileRecord → Option String
  | Except.ok r => some r.name
  | Except.error _ => none

/-- Does a section token run begin with a retained line token. -/
def startsWithLine (sec : DocSec) : Bool :=
  match sec.toks with
  | Token.line _ _ :: _ => true
  | _ => false

/-- Is a range end a concrete date point. -/
def isPointEnd : Option DateEnd → Bool
  | some (DateEnd.point _) => true
  | _ => false

/-- Normalized sequence exhibiting the divergence between first-line and
largest-style name extraction: the second header line carries the larger
font bucket. -/
def c4CexToks : List Token :=
  [Token.line "Ann Lee" { isBold := false, fontSize := 1 },
   Token.line "Big Name" { isBold := false, fontSize := 2 }]

/-- The earliest header line carrying the largest font bucket, stated
independently of the assembler's index-picking mechanism: the first line
whose font size equals the maximum over all header lines. -/
def earliestLargest (ls : List (String × Style)) : Option (String × Style) :=
  ls.find? (fun l => l.2.fontSize = maxFont ls)

/-- Demonstration sequence with a Header and one recognized Experience
heading, used to instantiate the segmenter claims. -/
def demoToks : List Token :=
  [Token.line "Jane Doe" { isBold := false, fontSize := 3 },
   Token.blankGap,
   Token.line "Experience" { isBold := true, fontSize := 2 },
   Token.line "Engineer" { isBold := false, fontSize := 1 }]

/-- Experience section body in which the first entry chunk holds only a
date-range line and the second a full entry (scenario of spec section 8). -/
def c8DemoToks : List Token :=
  [Token.line "Jan 2020 - Dec 2020" { isBold := false, fontSize := 1 },
   Token.blankGap,
   Token.line "Engineer" { isBold := false, fontSize := 1 },
   Token.line "Acme" { isBold := false, fontSize := 1 },
   Token.line "Jan 2021 - Present" { isBold := false, fontSize := 1 }]

/-- C9: whenever the argument vector does not hold exactly one argument
after the program name, the script writes the usage-error JSON object to
the error stream and exits with status 1 without ever calling the
extractor. -/
theorem c9_usage_error {E : Type} (msgOf : E → String)
    (extractFn : String → Except E ProfileRecord) (argv : List String)
    (h : argv.length ≠ 2) :
    runMain msgOf extractFn argv =
      { exitCode := 1, stdoutData := none,
        stderrData := some (errorEnvelope usageMessage), calledCore := false } := by
  match argv with
  | [] => rfl
  | [_] => rfl
  | [_, _] => exact absurd rfl h
  | _ :: _ :: _ :: _ => rfl

/-- Witness for C9 at a one-element argument vector and a concrete
extractor. -/
theorem c9_usage_error_witness :
    runMain errMessage (fun _ => Except.error CoreError.emptyDocument)
      ["parse_linkedin.py"] =
      { exitCode := 1, stdoutData := none,
        stderrData := some (errorEnvelope usageMessage), calledCore := false } :=
  c9_usage_error errMessage (fun _ => Except.error CoreError.emptyDocument)
    ["parse_linkedin.py"] (by decide)

/-- C10: for every exception value the extractor can raise, of every
exception type, the wrapper catches it, writes the error envelope with the
exception text to the error stream, writes nothing to the output stream,
and exits with status 1; the embedded script is a total function, so no
exception escapes. -/
theorem c10_catches_all {E : Type} (msgOf : E → String)
    (extractFn : String → Except E ProfileRecord) (prog path : String) (e : E)
    (h : extractFn path = Except.error e) :
    runMain msgOf extractFn [prog, path] =
      { exitCode := 1, stdoutData := none,
        stderrData := some (errorEnvelope (msgOf e)), calledCore := true } := by
  simp [runMain, h]

/-- Witness for C10 with a string-typed exception carrying an arbitrary
message. -/
theorem c10_catches_all_witness :
    runMain (fun m : String => m) (fun _ => Except.error "boom")
      ["parse_linkedin.py", "profile.pdf"] =
      { exitCode := 1, stdoutData := none,
        stderrData := some (errorEnvelope "boom"), calledCore := true } :=
  c10_catches_all (fun m : String => m) (fun _ => Except.error "boom")
    "parse_linkedin.py" "profile.pdf" "boom" rfl

/-- C1: on a well-formed invocation the program is determined by the core
parse outcome: a tagged failure surfaces as exit code 1 with the JSON
error envelope on the error stream and nothing on the output stream,
while a successful parse exits 0 and writes exactly the serialized
record to the output stream. -/
theorem c1_outcome_surface (doc : Document) (prog path : String) :
    runProgram [prog, path] doc =
      match extractCore doc with
      | Except.ok r =>
        { exitCode := 0, stdoutData := some (serializeRecord r),
          stderrData := none, calledCore := true }
      | Except.error e =>
        { exitCode := 1, stdoutData := none,
          stderrData := some (errorEnvelope (errMessage e)), calledCore := true } := by
  unfold runProgram runMain
  cases h : extractCore doc <;> simp [h]

/-- C2: a document whose normalization leaves zero non-boilerplate lines
fails with EmptyDocument; no partial record is returned. -/
theorem c2_empty_document (doc : Document)
    (h : countLines (normalizeDoc doc) = 0) :
    extractCore doc = Except.error CoreError.emptyDocument := by
  unfold extractCore
  simp [h, minRetainedLines, parseNormalized]

/-- Witness for C2 at the empty document. -/
theorem c2_empty_document_witness :
    countLines (normalizeDoc []) = 0 ∧
      extractCore [] = Except.error CoreError.emptyDocument :=
  ⟨by decide, c2_empty_document [] (by decide)⟩

/-- C3: parsing the same normalized line sequence twice yields
byte-identical serialized output; the pipeline is a pure function of its
input with no state carried across invocations. -/
theorem c3_deterministic (ts : List Token) :
    (parseNormalized ts).map serializeRecord =
      (parseNormalized ts).map serializeRecord := rfl

/-- The segmenter worker emits sections whose token runs concatenate to
the accumulated tokens followed by the remaining input. -/
theorem segGo_flatten (rest : List Token) :
    ∀ (lbl : SectionLabel) (cur : List Token) (pb : Bool),
      ((segGo lbl cur pb rest).map DocSec.toks).flatten = cur ++ rest := by
  induction rest with
  | nil => intro lbl cur pb; simp [segGo]
  | cons t r ih =>
    intro lbl cur pb
    cases t with
    | blankGap => simp [segGo, ih]
    | line s st =>
      cases h : headingLabel s st pb with
      | some newLbl => simp [segGo, h, ih]
      | none => simp [segGo, h, ih]

/-- The segmenter worker emits a first section carrying the current label
whose tokens extend the accumulator, and every later section opens with
its heading line. -/
theorem segGo_struct (rest : List Token) :
    ∀ (lbl : SectionLabel) (cur : List Token) (pb : Bool),
      ∃ pre tl,
        segGo lbl cur pb rest = { label := lbl, toks := cur ++ pre } :: tl ∧
          ∀ sec ∈ tl, startsWithLine sec = true := by
  induction rest with
  | nil =>
    intro lbl cur pb
    exact ⟨[], [], by simp [segGo], by simp⟩
  | cons t r ih =>
    intro lbl cur pb
    cases t with
    | blankGap =>
      obtain ⟨pre, tl, heq, htl⟩ := ih lbl (cur ++ [Token.blankGap]) true
      exact ⟨Token.blankGap :: pre, tl, by simp [segGo, heq], htl⟩
    | line s st =>
      cases h : headingLabel s st pb with
      | some newLbl =>
        obtain ⟨pre, tl, heq, htl⟩ := ih newLbl [Token.line s st] false
        refine ⟨[], { label := newLbl, toks := Token.line s st :: pre } :: tl, ?_, ?_⟩
        · simp [segGo, h, heq]
        · intro sec hsec
          rcases List.mem_cons.mp hsec with rfl | hmem
          · simp [startsWithLine]
          · exact htl sec hmem
      | none =>
        obtain ⟨pre, tl, heq, htl⟩ := ih lbl (cur ++ [Token.line s st]) false
        exact ⟨Token.line s st :: pre, tl, by simp [segGo, h, heq], htl⟩

/-- C7: segmentation partitions the normalized token sequence: the section
token runs concatenate back to the input with no overlap and no gaps, the
first section is the synthetic Header pseudo-section holding everything
before the first recognized heading, and every later section opens with
the heading line that started it, so lines between consecutive headings
sit in the preceding heading's section. -/
theorem c7_sections_partition (ts : List Token) :
    ((segmentDoc ts).map DocSec.toks).flatten = ts ∧
      (segmentDoc ts).head?.map DocSec.label = some SectionLabel.header ∧
      ∀ sec ∈ (segmentDoc ts).drop 1, startsWithLine sec = true := by
  obtain ⟨pre, tl, heq, htl⟩ := segGo_struct ts SectionLabel.header [] false
  refine ⟨?_, ?_, ?_⟩
  · simpa using segGo_flatten ts SectionLabel.header [] false
  · simp only [segmentDoc] at heq ⊢
    rw [heq]
    simp
  · intro sec hsec
    apply htl
    simpa [segmentDoc, heq] using hsec

/-- Witness for C7 at a concrete sequence with a Header and an Experience
section: the tail section opens with its heading line. -/
theorem c7_sections_partition_witness :
    startsWithLine
      { label := SectionLabel.experience,
        toks := [Token.line "Experience" { isBold := true, fontSize := 2 },
                 Token.line "Engineer" { isBold := false, fontSize := 1 }] } = true :=
  (c7_sections_partition demoToks).2.2
    { label := SectionLabel.experience,
      toks := [Token.line "Experience" { isBold := true, fontSize := 2 },
               Token.line "Engineer" { isBold := false, fontSize := 1 }] }
    (by decide)

/-- C5: a line is recognized as a section heading with a known label only
when its canonical text matches the fixed vocabulary and it carries at
least one structural signal (style hint, or alone right after a BlankGap);
a vocabulary-matching line styled as plain body text with no preceding gap
is not a heading, and during segmentation it stays body content of the
current section. -/
theorem c5_heading_needs_vocab_and_signal (s : String) (st : Style) (pb : Bool) :
    (∀ lbl, lbl ≠ SectionLabel.unknown → headingLabel s st pb = some lbl →
        vocabLookup (canonHeading s) = some lbl ∧
          (hasStyleSignal st = true ∨ pb = true)) ∧
      (hasStyleSignal st = false → pb = false → headingLabel s st pb = none) ∧
      (∀ lbl cur rest, hasStyleSignal st = false →
          segGo lbl cur false (Token.line s st :: rest) =
            segGo lbl (cur ++ [Token.line s st]) false rest) := by
  refine ⟨?_, ?_, ?_⟩
  · intro lbl hne h
    unfold headingLabel at h
    cases hv : vocabLookup (canonHeading s) with
    | some l =>
      rw [hv] at h
      by_cases hs : hasStyleSignal st = true ∨ pb = true
      · rcases hs with hs | hs
        · simp [hs] at h
          exact ⟨by rw [h], Or.inl hs⟩
        · simp [hs] at h
          exact ⟨by rw [h], Or.inr hs⟩
      · push_neg at hs
        simp [Bool.not_eq_true] at hs
        simp [hs.1, hs.2] at h
    | none =>
      rw [hv] at h
      by_cases hs : hasStyleSignal st = true ∧ pb = true
      · simp [hs.1, hs.2] at h
        exact absurd h.symm hne
      · rw [Classical.not_and_iff_or_not_not] at hs
        rcases hs with hs | hs
        · simp [Bool.not_eq_true] at hs
          simp [hs] at h
        · simp [Bool.not_eq_true] at hs
          simp [hs] at h
  · intro h1 h2
    subst h2
    unfold headingLabel
    cases hv : vocabLookup (canonHeading s) with
    | some l => simp [h1]
    | none => simp [h1]
  · intro lbl cur rest h1
    have hnone : headingLabel s st false = none := by
      unfold headingLabel
      cases hv : vocabLookup (canonHeading s) with
      | some l => simp [h1]
      | none => simp [h1]
    simp [segGo, hnone]

/-- Witness for C5 at the word Experience: bold-styled it is recognized
with its vocabulary label, and plain-styled with no preceding gap it is
appended to the current section body. -/
theorem c5_heading_needs_vocab_and_signal_witness :
    (vocabLookup (canonHeading "Experience") = some SectionLabel.experience ∧
        (hasStyleSignal { isBold := true, fontSize := 2 } = true ∨ false = true)) ∧
      headingLabel "Experience" { isBold := false, fontSize := 1 } false = none ∧
      segGo SectionLabel.summary []
          false [Token.line "Experience" { isBold := false, fontSize := 1 }] =
        segGo SectionLabel.summary
          [Token.line "Experience" { isBold := false, fontSize := 1 }] false [] :=
  ⟨(c5_heading_needs_vocab_and_signal "Experience" { isBold := true, fontSize := 2 }
      false).1 SectionLabel.experience (by decide) (by decide),
   (c5_heading_needs_vocab_and_signal "Experience" { isBold := false, fontSize := 1 }
      false).2.1 (by decide) rfl,
   by
     have h := (c5_heading_needs_vocab_and_signal "Experience"
       { isBold := false, fontSize := 1 } false).2.2 SectionLabel.summary [] []
       (by decide)
     simpa using h⟩

/-- Taking the element at the picked index agrees with the earliest
satisfying element. -/
theorem pickIdx_bind_get {α : Type} (p : α → Bool) (ls : List α) :
    (pickIdx p ls).bind ls.get? = ls.find? p := by
  induction ls with
  | nil => rfl
  | cons a as ih =>
    by_cases h : p a
    · simp [pickIdx, h, List.find?]
    · cases hp : pickIdx p as with
      | none => simp [pickIdx, h, hp, List.find?, ← ih]
      | some i => simp [pickIdx, h, hp, List.find?, ← ih]

/-- Counterexample to C4 as stated: in a Header whose second line carries
the larger font bucket, the record name is that larger-style line, not the
non-empty first line. -/
theorem c4_counterexample :
    (headerLinesOf c4CexToks).head?.map Prod.fst = some "Ann Lee" ∧
      recNameOf (parseNormalized c4CexToks) = some "Big Name" ∧
      some "Big Name" ≠ (some "Ann Lee" : Option String) := by decide

/-- C4 as amended: for every successfully parsed normalized sequence, the
record's name field equals the text of the earliest largest-style Header
line; it equals the first line's text exactly when no later Header line
carries a larger style bucket. -/
theorem c4_amended_earliest_largest (ts : List Token) (r : ProfileRecord)
    (hok : parseNormalized ts = Except.ok r) :
    (earliestLargest (headerLinesOf ts)).map Prod.fst = some r.name := by
  unfold parseNormalized assemble at hok
  cases hpick : pickIdx
      (fun l => l.2.fontSize = maxFont (linesOf (headerToksOf (segmentDoc ts))))
      (linesOf (headerToksOf (segmentDoc ts))) with
  | none =>
    simp only [hpick] at hok
    exact Except.noConfusion hok
  | some i =>
    simp only [hpick] at hok
    cases hget : (linesOf (headerToksOf (segmentDoc ts))).get? i with
    | none =>
      simp only [hget] at hok
      exact Except.noConfusion hok
    | some nm =>
      simp only [hget] at hok
      by_cases hne : nm.1 = ""
      · rw [if_pos hne] at hok
        exact Except.noConfusion hok
      · rw [if_neg hne] at hok
        have h2 := Except.ok.inj hok
        have hname : r.name = nm.1 := by rw [← h2]
        unfold earliestLargest headerLinesOf
        rw [← pickIdx_bind_get, hpick]
        simp [hget, hname]
        exact ⟨nm.2, by rw [← List.get?_eq_getElem?]; exact hget⟩

/-- Witness for the amended C4 at a Header whose largest-style line is the
second one: the name is that line, not the first. -/
theorem c4_amended_earliest_largest_witness :
    (earliestLargest (headerLinesOf c4CexToks)).map Prod.fst =
      some ({ name := "Big Name", headline := none, location := none,
              summary := none, experience := [], education := [], skills := [],
              certifications := [],
              warnings := [{ field := "headline", message := "HeaderFieldUnresolved" },
                           { field := "location", message := "HeaderFieldUnresolved" }] }
          : ProfileRecord).name :=
  c4_amended_earliest_largest c4CexToks
    { name := "Big Name", headline := none, location := none,
      summary := none, experience := [], education := [], skills := [],
      certifications := [],
      warnings := [{ field := "headline", message := "HeaderFieldUnresolved" },
                   { field := "location", message := "HeaderFieldUnresolved" }] }
    rfl

/-- C6: an explicitly stated duration is copied verbatim into the
DateRange and never overwritten by recomputation; with no explicit
statement the duration is exactly the derived one, and a duration is
derivable only when both bounds are concrete points of at least year
granularity; the synthetic range Jan 2020 - Present parses to start year
2020 month 1, an open present end, and a null duration; and an explicit
parenthesized annotation is kept verbatim even where the derived value
would differ. -/
theorem c6_duration_verbatim :
    (∀ s r, parseDateRange s = some r → ∀ d, annDurOf s = some d →
        r.duration = some d) ∧
      (∀ s r, parseDateRange s = some r → annDurOf s = none →
        r.duration = deriveDuration r.start r.stop) ∧
      (∀ st en, (deriveDuration st en).isSome = true →
        st.isSome = true ∧ isPointEnd en = true) ∧
      parseDateRange "Jan 2020 - Present" =
        some { start := some { year := 2020, month := some 1 },
               stop := some DateEnd.present, duration := none } ∧
      parseDateRange "Jan 2020 - Dec 2022 (3 yrs)" =
        some { start := some { year := 2020, month := some 1 },
               stop := some (DateEnd.point { year := 2022, month := some 12 }),
               duration := some { years := 3, months := 0 } } ∧
      some { years := 3, months := 0 } ≠
        deriveDuration (some { year := 2020, month := some 1 })
          (some (DateEnd.point { year := 2022, month := some 12 })) := by
  refine ⟨?_, ?_, ?_, by decide, by decide, by decide⟩
  · intro s r hr d hd
    unfold parseDateRange at hr
    simp only [hd] at hr
    repeat' split at hr
    all_goals
      first
        | exact Option.noConfusion hr
        | rw [← Option.some.inj hr]
  · intro s r hr hd
    unfold parseDateRange at hr
    simp only [hd] at hr
    repeat' split at hr
    all_goals
      first
        | exact Option.noConfusion hr
        | (rw [← Option.some.inj hr] <;> simp [deriveDuration])
  · intro st en h
    cases st with
    | none => simp [deriveDuration] at h
    | some a =>
      cases en with
      | none => simp [deriveDuration] at h
      | some e =>
        cases e with
        | present => simp [deriveDuration] at h
        | point b => exact ⟨rfl, rfl⟩

/-- Witness for C6 at a range with an explicit duration suffix of two
years: the parsed duration is that explicit value. -/
theorem c6_duration_verbatim_witness :
    ({ start := some { year := 2020, month := some 1 },
       stop := some DateEnd.present,
       duration := some { years := 2, months := 0 } } : DateRange).duration =
      some { years := 2, months := 0 } :=
  c6_duration_verbatim.1 "Jan 2020 - Present · 2 yrs"
    { start := some { year := 2020, month := some 1 },
      stop := some DateEnd.present,
      duration := some { years := 2, months := 0 } }
    rfl { years := 2, months := 0 } rfl

/-- The experience worker keeps exactly the resolvable chunks, in order,
and records one UnresolvedEntryField warning per dropped chunk. -/
theorem expGo_spec (cs : List (List String)) :
    (expGo cs).1 = cs.filterMap parseExperienceChunk ∧
      (expGo cs).2 =
        (cs.filter (fun c => (parseExperienceChunk c).isNone)).map
          (fun _ => { field := "experience", message := "UnresolvedEntryField" }) := by
  induction cs with
  | nil => exact ⟨rfl, rfl⟩
  | cons c cs ih =>
    cases h : parseExperienceChunk c with
    | some e => simp [expGo, h, ih.1, ih.2]
    | none => simp [expGo, h, ih.1, ih.2]

/-- C8: over any Experience section body, the entries are exactly the
resolvable entry chunks in original source order, each unresolvable chunk
contributes exactly one UnresolvedEntryField warning instead of aborting
the section, and a chunk made only of date-range lines (no title or
company line) is unresolvable. -/
theorem c8_unresolved_dropped (ts : List Token) :
    (parseExperienceSection ts).1 =
        (entryChunks ts).filterMap parseExperienceChunk ∧
      (parseExperienceSection ts).2 =
        ((entryChunks ts).filter (fun c => (parseExperienceChunk c).isNone)).map
          (fun _ => { field := "experience", message := "UnresolvedEntryField" }) ∧
      ∀ c ∈ entryChunks ts, (∀ s ∈ c, (parseDateRange s).isSome = true) →
        parseExperienceChunk c = none := by
  refine ⟨(expGo_spec (entryChunks ts)).1, (expGo_spec (entryChunks ts)).2, ?_⟩
  intro c _ hall
  cases c with
  | nil => rfl
  | cons s cs =>
    have hs : (parseDateRange s).isSome = true := hall s (by simp)
    unfold parseExperienceChunk structuralLines
    simp [List.takeWhile, hs]

/-- Witness for C8 at the section whose first chunk is a lone date-range
line and whose second chunk is a complete entry. -/
theorem c8_unresolved_dropped_witness :
    (parseExperienceSection c8DemoToks).1 =
        (entryChunks c8DemoToks).filterMap parseExperienceChunk ∧
      parseExperienceChunk ["Jan 2020 - Dec 2020"] = none :=
  ⟨(c8_unresolved_dropped c8DemoToks).1,
   (c8_unresolved_dropped c8DemoToks).2.2 ["Jan 2020 - Dec 2020"] (by decide)
     (by decide)⟩
